import Mathlib

/-!
Shallow embedding of the Instagram saved-posts downloader
(`app.py`, `downloader/utils.py`, `downloader/metadata.py`,
`downloader/fetch.py`, `downloader/download.py`).

Python values are modelled as follows: a Python `set` of strings is a
`List String` whose observable behaviour is membership (`set.add` inserts
only when absent; `set(...)` deduplicates, modelled by `List.dedup` since
Python set order is unspecified); an object attribute that may be missing
(`hasattr` checks in the source) is an `Attr α`; a value that may be `None`
is an `Option`; a fallible call whose exceptions the source catches is a
total function returning `Option`.  Remote responses are supplied as
oracles (functions given as arguments), so every definition is executable.
-/

namespace InstaDL

/-! ### Download ledger — `downloader/utils.py`, class `DownloadTracker` -/

/-- On-disk state of `data/downloaded.json`: the file may be missing,
may fail to parse (`json.load` raising, caught in `_load_tracker`), or
holds a JSON object with a `downloaded` array (absent key defaults to the
empty array) and a `last_updated` timestamp. -/
inductive TrackerFile where
  | missing : TrackerFile
  | corrupt : TrackerFile
  | valid : List String → String → TrackerFile
deriving DecidableEq

/-- Embeds `DownloadTracker._load_tracker`: a missing file or any load error
yields the empty set; a valid file yields `set` of the `downloaded` entry of the parsed object,
i.e. the deduplicated array. -/
def load_tracker : TrackerFile → List String
  | .missing => []
  | .corrupt => []
  | .valid downloaded _ => downloaded.dedup

/-- Embeds `DownloadTracker.is_downloaded`: membership in the in-memory set. -/
def is_downloaded (downloaded_pks : List String) (pk : String) : Bool :=
  downloaded_pks.contains pk

/-- Embeds `DownloadTracker.mark_downloaded`: `set.add`, inserting only when
absent. -/
def mark_downloaded (downloaded_pks : List String) (pk : String) : List String :=
  if downloaded_pks.contains pk then downloaded_pks else pk :: downloaded_pks

/-- Embeds `DownloadTracker.save_tracker`: writes the current set as the
`downloaded` array together with a fresh timestamp. -/
def save_tracker (downloaded_pks : List String) (now : String) : TrackerFile :=
  .valid downloaded_pks now

/-! ### Media objects — the subset of `instagrapi.types.Media` (or a mock
object) that `downloader/metadata.py` and `downloader/download.py` read -/

/-- A Python attribute that may be absent: `noattr` is `hasattr _ = False`,
`attr v` is a present attribute with value `v`. -/
inductive Attr (α : Type) where
  | noattr : Attr α
  | attr : α → Attr α
deriving DecidableEq

/-- Value of a present attribute, with the default the source uses when it
is absent. -/
def Attr.getD : Attr α → α → α
  | .noattr, d => d
  | .attr v, _ => v

structure IGUser where
  pk : String
  username : String
deriving DecidableEq

/-- Embeds `clips_metadata.original_sound_info` (fields read through `hasattr`
with `""` default). -/
structure SoundInfo where
  audio_asset_id : Attr String
  original_audio_title : Attr String
deriving DecidableEq

/-- Embeds `clips_metadata.music_info`. -/
structure MusicInfo where
  audio_asset_id : Attr String
  display_artist : Attr String
deriving DecidableEq

/-- Embeds `media.clips_metadata`: the two audio sources, each may be an absent
attribute (`Attr.noattr`) or present with value `None` (`Attr.attr none`). -/
structure ClipsMetadata where
  original_sound_info : Attr (Option SoundInfo)
  music_info : Attr (Option MusicInfo)
deriving DecidableEq

structure IGLocation where
  name : Attr String
  city : Attr String
deriving DecidableEq

/-- The fields of a media object the embedded code reads.  `pk` is kept in
its string form (`str(media.pk)`).  `caption_text` is `none` when the
caption is `None`; the source tests it for truthiness, so the empty string
also counts as no caption.  `resources` carries the album sub-resources
(only their number is ever read, via `len`). -/
structure Media where
  pk : String
  media_type : Int
  caption_text : Option String
  user : Option IGUser
  taken_at : Option String
  like_count : Attr Int
  comment_count : Attr Int
  product_type : Attr String
  code : Attr String
  clips_metadata : Attr (Option ClipsMetadata)
  location : Attr (Option IGLocation)
  resources : Attr (List Unit)
deriving DecidableEq

/-- Python truthiness of an optional string (`None` and `""` are falsy). -/
def truthyStr : Option String → Bool
  | none => false
  | some s => !(s == "")

/-! ### Hashtag and mention extraction — `metadata.py`,
`_extract_hashtags` / `_extract_mentions`: `re.findall` of `#(\w+)` resp.
`@(\w+)` over the caption, then `list(set(...))`. -/

/-- The `\w` class of the pattern: letters, digits, underscore. -/
def isWordChar (c : Char) : Bool :=
  c.isAlphanum || c == '_'

/-- Left-to-right non-overlapping scan for `marker(\w+)` matches, as the
regex engine performs it: `acc = none` means not inside a candidate match;
`acc = some run` means a marker was seen and `run` holds the word
characters read so far (reversed).  A marker directly following a
completed or failed match starts a new candidate. -/
def findTagsAux (marker : Char) : List Char → Option (List Char) → List String
  | [], none => []
  | [], some acc => if acc.isEmpty then [] else [String.mk acc.reverse]
  | c :: rest, none =>
      if c == marker then findTagsAux marker rest (some [])
      else findTagsAux marker rest none
  | c :: rest, some acc =>
      if isWordChar c then findTagsAux marker rest (some (c :: acc))
      else
        let tail := if c == marker then findTagsAux marker rest (some [])
                    else findTagsAux marker rest none
        if acc.isEmpty then tail else String.mk acc.reverse :: tail

/-- All `marker(\w+)` captures of a text, in match order, duplicates
kept — the raw `re.findall` result. -/
def findTags (marker : Char) (text : String) : List String :=
  findTagsAux marker text.data none

/-- Embeds `MetadataExtractor._extract_hashtags`: empty result on a falsy
caption, otherwise the deduplicated `#(\w+)` captures. -/
def extract_hashtags (text : Option String) : List String :=
  if truthyStr text then (findTags '#' (text.getD "")).dedup else []

/-- Embeds `MetadataExtractor._extract_mentions`: as hashtags, with `@`. -/
def extract_mentions (text : Option String) : List String :=
  if truthyStr text then (findTags '@' (text.getD "")).dedup else []

/-- Embeds `MetadataExtractor._get_media_type_name`. -/
def get_media_type_name (media_type : Int) : String :=
  if media_type == 1 then "Photo"
  else if media_type == 2 then "Video/Reel"
  else if media_type == 8 then "Album/Carousel"
  else "Unknown"

/-! ### Metadata extraction — `metadata.py`, `MetadataExtractor.extract_metadata` -/

/-- The `audio` sub-record of a metadata document. -/
structure AudioRec where
  audio_id : String
  original_audio_title : String
deriving DecidableEq

/-- The `location` sub-record of a metadata document. -/
structure LocationRec where
  name : String
  city : String
deriving DecidableEq

/-- The metadata document written per post.  The conditionally added keys
(`audio`, `location`, `carousel_count`) are `Option`s: `none` means the
key is absent from the JSON object. -/
structure MetadataRecord where
  pk : String
  media_type : Int
  media_type_name : String
  caption : String
  username : String
  user_id : String
  taken_at : String
  like_count : Int
  comment_count : Int
  product_type : String
  code : String
  hashtags : List String
  mentions : List String
  downloaded_at : String
  audio : Option AudioRec
  location : Option LocationRec
  carousel_count : Option Nat
deriving DecidableEq

/-- The `if/elif` over the audio sources of a truthy `clips_metadata`:
the `original_sound_info` branch is taken whenever that attribute exists
(even if its value is `None`, in which case no audio is recorded); the
`music_info` branch is reached only when `original_sound_info` is not an
attribute of `clips_metadata`. -/
def extract_audio_from (cm : ClipsMetadata) : Option AudioRec :=
  match cm.original_sound_info with
  | .attr (some si) =>
      some { audio_id := si.audio_asset_id.getD ""
             original_audio_title := si.original_audio_title.getD "" }
  | .attr none => none
  | .noattr =>
      match cm.music_info with
      | .attr (some mi) =>
          some { audio_id := mi.audio_asset_id.getD ""
                 original_audio_title := mi.display_artist.getD "" }
      | _ => none

/-- Both audio branches first require `media.clips_metadata` to be a
present, truthy attribute. -/
def extract_audio_clips : Attr (Option ClipsMetadata) → Option AudioRec
  | .noattr => none
  | .attr none => none
  | .attr (some cm) => extract_audio_from cm

/-- The audio branch of `extract_metadata`: only for `media_type == 2`. -/
def extract_audio (m : Media) : Option AudioRec :=
  if m.media_type == 2 then extract_audio_clips m.clips_metadata else none

/-- The location branch of `extract_metadata`: added only when `location`
is a present, truthy attribute. -/
def extract_location (m : Media) : Option LocationRec :=
  match m.location with
  | .attr (some loc) => some { name := loc.name.getD "", city := loc.city.getD "" }
  | _ => none

/-- The carousel branch of `extract_metadata`: `len(media.resources)`,
added only for `media_type == 8` with a `resources` attribute. -/
def extract_carousel_count (m : Media) : Option Nat :=
  if m.media_type == 8 then
    match m.resources with
    | .attr rs => some rs.length
    | .noattr => none
  else none

/-- Embeds `MetadataExtractor.extract_metadata`.  `now` stands for
`datetime.now().isoformat()`. -/
def extract_metadata (m : Media) (now : String) : MetadataRecord :=
  { pk := m.pk
    media_type := m.media_type
    media_type_name := get_media_type_name m.media_type
    caption := if truthyStr m.caption_text then m.caption_text.getD "" else ""
    username := match m.user with | some u => u.username | none => "unknown"
    user_id := match m.user with | some u => u.pk | none => ""
    taken_at := match m.taken_at with | some t => t | none => ""
    like_count := m.like_count.getD 0
    comment_count := m.comment_count.getD 0
    product_type := m.product_type.getD ""
    code := m.code.getD ""
    hashtags := if truthyStr m.caption_text then extract_hashtags m.caption_text else []
    mentions := if truthyStr m.caption_text then extract_mentions m.caption_text else []
    downloaded_at := now
    audio := extract_audio m
    location := extract_location m
    carousel_count := extract_carousel_count m }

/-- Embeds `MetadataExtractor.save_metadata`: extracts the record and writes it
to `{pk}.json`; its whole body is inside `try`, so any error (extraction
or write, the latter an oracle argument here) is caught, logged, and
`none` is returned — the function never raises. -/
def save_metadata (m : Media) (pk : String) (now : String) (writeOk : Bool) :
    Option (String × MetadataRecord) :=
  if writeOk then some (pk ++ ".json", extract_metadata m now) else none

/-! ### Paginated listing — `downloader/fetch.py`, `SavedMediaFetcher`

A remote response to one page request.  Each element of `items` is
`some pk` when the item has a `media` object with a `pk` and the follow-up
`media_info(pk)` call succeeds, and `none` when the item lacks them or the
call raises (caught and skipped in the source).  `next_max_id` is `none`
when the response carries no cursor (or an empty, falsy one).  The remote
is an oracle `pages : Nat → PageResponse` giving the response to the k-th
page request issued by the call; `fuel` bounds the number of loop
iterations we unfold, `none` meaning the loop has not terminated within
that bound. -/

structure PageResponse where
  items : List (Option String)
  more_available : Bool
  next_max_id : Option String

/-- The pks of the valid items of the item list of a page (invalid or
failing items are skipped by the inner loop of the source). -/
def itemPks (items : List (Option String)) : List String :=
  items.filterMap id

/-- The media pks a page contributes. -/
def validPks (p : PageResponse) : List String :=
  itemPks p.items

/-- The inner `for item in items` loop of `fetch_collection_medias`:
appends the media of each valid item and increments `fetched`; directly after
an append, if `amount > 0 and fetched >= amount`, the whole call returns,
leaving the rest of the page unprocessed.  Returns the pks taken from this
page and whether the early return fired. -/
def takeItems (amount : Int) : Nat → List (Option String) → List String × Bool
  | _, [] => ([], false)
  | fetched, none :: rest => takeItems amount fetched rest
  | fetched, some pk :: rest =>
      if 0 < amount ∧ amount ≤ (fetched + 1 : Int) then ([pk], true)
      else
        let p := takeItems amount (fetched + 1) rest
        (pk :: p.1, p.2)

/-- The `while True` loop of `fetch_collection_medias`, unfolded `fuel`
times from the k-th request with `acc` the medias so far: request a page,
run the item loop (early return on reaching `amount`), then
`if not more_available or not max_id: break`.  On exit it returns the
medias together with the number of page requests issued. -/
def fetchCollectionLoop (pages : Nat → PageResponse) (amount : Int) :
    Nat → Nat → List String → Option (List String × Nat)
  | 0, _, _ => none
  | fuel + 1, k, acc =>
      if (takeItems amount acc.length (pages k).items).2 then
        some (acc ++ (takeItems amount acc.length (pages k).items).1, k + 1)
      else if (pages k).more_available = false ∨ (pages k).next_max_id = none then
        some (acc ++ (takeItems amount acc.length (pages k).items).1, k + 1)
      else
        fetchCollectionLoop pages amount fuel (k + 1)
          (acc ++ (takeItems amount acc.length (pages k).items).1)

/-- Embeds `SavedMediaFetcher.fetch_collection_medias` (pagination behaviour):
the returned medias, as their pks, and the number of page requests. -/
def fetch_collection_medias (pages : Nat → PageResponse) (amount : Int)
    (fuel : Nat) : Option (List String × Nat) :=
  fetchCollectionLoop pages amount fuel 0 []

/-- The `while more_available` loop of `_fetch_saved_private_api`: request
a page, append every valid item, then `if not more_available: break` — the
cursor is stored but never consulted by the exit condition. -/
def fetchSavedLoop (pages : Nat → PageResponse) :
    Nat → Nat → List String → Option (List String)
  | 0, _, _ => none
  | fuel + 1, k, acc =>
      if (pages k).more_available then
        fetchSavedLoop pages fuel (k + 1) (acc ++ validPks (pages k))
      else some (acc ++ validPks (pages k))

/-- Embeds `SavedMediaFetcher._fetch_saved_private_api` (pagination behaviour). -/
def fetch_saved_private_api (pages : Nat → PageResponse) (fuel : Nat) :
    Option (List String) :=
  fetchSavedLoop pages fuel 0 []

/-- The valid pks delivered by `m` consecutive page requests starting at
request `k` — the reference stream against which the loops are judged. -/
def rangeValids (pages : Nat → PageResponse) (k : Nat) : Nat → List String
  | 0 => []
  | m + 1 => validPks (pages k) ++ rangeValids pages (k + 1) m

/-- The response of page `k` lets the collection loop continue: more pages are
declared and a cursor is present. -/
def pageContinues (pages : Nat → PageResponse) (k : Nat) : Prop :=
  (pages k).more_available = true ∧ (pages k).next_max_id ≠ none

instance (pages : Nat → PageResponse) (k : Nat) : Decidable (pageContinues pages k) := by
  unfold pageContinues
  infer_instance

/-! ### Media download — `downloader/download.py`, `MediaDownloader` -/

/-- The three download entry points of the `instagrapi` client, as oracles
taking a media pk and the destination folder; `none` models the call
raising (network or I/O error), which the `_download_*` helpers catch and
turn into a `None` return. -/
structure RemoteClient where
  photo_download : String → String → Option String
  video_download : String → String → Option String
  album_download : String → String → Option String

/-- Embeds `MediaDownloader.download_media`: dispatch on `media_type` — photo (1)
into `photos`, video (2) into `videos`, album (8) into `albums/{pk}` — any
other type, and any error raised by a client call, yields `none`; the
function never raises (every branch is wrapped in `try`). -/
def download_media (c : RemoteClient) (base : String) (m : Media) : Option String :=
  if m.media_type == 1 then c.photo_download m.pk (base ++ "/photos")
  else if m.media_type == 2 then c.video_download m.pk (base ++ "/videos")
  else if m.media_type == 8 then c.album_download m.pk (base ++ "/albums/" ++ m.pk)
  else none

/-! ### Orchestrator — `app.py`: the filter and download loop of `main` -/

/-- The filtering step: `[m for m in saved_medias if not
tracker.is_downloaded(str(m.pk))]`. -/
def filterNew (tracker : List String) (saved_medias : List Media) : List Media :=
  saved_medias.filter (fun m => !(is_downloaded tracker m.pk))

/-- Embeds `already_downloaded = len(saved_medias) - len(to_download)`. -/
def skippedCount (tracker : List String) (saved_medias : List Media) : Nat :=
  saved_medias.length - (filterNew tracker saved_medias).length

/-- Success/failure tallies of a run. -/
structure RunStats where
  successful : Nat
  failed : Nat
deriving DecidableEq

/-- One iteration of the download loop in `main`.  `download_result` is
what `downloader.download_media(media)` returned and `metadata_result`
what `metadata_extractor.save_metadata(media, pk)` returned; neither call
can raise (each catches its own exceptions), so the `except` branch of the loop
is unreachable for them.  If the download succeeded, `save_metadata` is
called with its return value discarded, the post is marked in the ledger
and the success counter incremented; otherwise the failure counter is
incremented. -/
def processPost (tracker : List String) (stats : RunStats) (pk : String)
    (download_result : Option String) (metadata_result : Option String) :
    List String × RunStats :=
  match download_result, metadata_result with
  | some _, _ =>
      (mark_downloaded tracker pk,
       { stats with successful := stats.successful + 1 })
  | none, _ => (tracker, { stats with failed := stats.failed + 1 })

/-- The whole download loop: one `processPost` step per post, in order.
Each list element is `(pk, download_result, metadata_result)`. -/
def runDownloadLoop : List (String × Option String × Option String) →
    List String → RunStats → List String × RunStats
  | [], tracker, stats => (tracker, stats)
  | (pk, d, md) :: rest, tracker, stats =>
      let step := processPost tracker stats pk d md
      runDownloadLoop rest step.1 step.2

/-! ### Concrete fixtures used by witnesses and counterexamples -/

/-- A media object with every optional attribute absent. -/
def baseMedia : Media :=
  { pk := "1", media_type := 1, caption_text := none, user := none,
    taken_at := none, like_count := .noattr, comment_count := .noattr,
    product_type := .noattr, code := .noattr, clips_metadata := .noattr,
    location := .noattr, resources := .noattr }

def photoMedia : Media := { baseMedia with pk := "11", media_type := 1 }

def mysteryMedia : Media := { baseMedia with pk := "99", media_type := 7 }

def albumMedia5 : Media :=
  { baseMedia with
    pk := "88", media_type := 8,
    resources := .attr [(), (), (), (), ()] }

def origSound : SoundInfo :=
  { audio_asset_id := .attr "a1", original_audio_title := .attr "t1" }

def origClips : ClipsMetadata :=
  { original_sound_info := .attr (some origSound), music_info := .noattr }

def musicOnly : MusicInfo :=
  { audio_asset_id := .attr "a2", display_artist := .attr "artist" }

def musicClips : ClipsMetadata :=
  { original_sound_info := .noattr, music_info := .attr (some musicOnly) }

def cafeLoc : IGLocation := { name := .attr "Cafe", city := .attr "Paris" }

def videoMediaOriginalSound : Media :=
  { baseMedia with
    pk := "22", media_type := 2, clips_metadata := .attr (some origClips) }

def videoMediaMusicOnly : Media :=
  { baseMedia with
    pk := "33", media_type := 2, clips_metadata := .attr (some musicClips) }

def locatedMedia : Media :=
  { baseMedia with
    pk := "44", location := .attr (some cafeLoc) }

/-- A client whose photo and video calls succeed and whose album call
raises (is caught and becomes a `None` return). -/
def stubClient : RemoteClient :=
  { photo_download := fun pk folder => some (folder ++ "/" ++ pk ++ ".jpg")
    video_download := fun pk folder => some (folder ++ "/" ++ pk ++ ".mp4")
    album_download := fun _ _ => none }

/-- A malformed remote: every response claims more pages are available but
returns no cursor. -/
def malformedPages : Nat → PageResponse :=
  fun _ => { items := [], more_available := true, next_max_id := none }

/-- A stub yielding unlimited pages, each with two valid items and one
invalid one. -/
def unlimitedStub : Nat → PageResponse :=
  fun k => { items := [some (toString k ++ "a"), none, some (toString k ++ "b")]
             more_available := true
             next_max_id := some "cursor" }

/-- A remote whose second response declares no more pages. -/
def endingStub : Nat → PageResponse :=
  fun k => { items := [some (toString k)], more_available := k == 0,
             next_max_id := some "cursor" }

/-! ### Basic lemmas -/

theorem is_downloaded_mark_self (t : List String) (pk : String) :
    is_downloaded (mark_downloaded t pk) pk = true := by
  unfold is_downloaded mark_downloaded
  by_cases h : pk ∈ t
  · simp [h]
  · simp [h]

theorem mark_downloaded_mem (t : List String) (pk : String) :
    pk ∈ mark_downloaded t pk := by
  unfold mark_downloaded
  by_cases h : pk ∈ t
  · simp [h]
  · simp [h]

theorem extract_audio_clips_isSome {a : Attr (Option ClipsMetadata)}
    (h : (extract_audio_clips a).isSome = true) :
    ∃ cm, a = .attr (some cm) ∧ (extract_audio_from cm).isSome = true := by
  match a with
  | .noattr => simp [extract_audio_clips] at h
  | .attr none => simp [extract_audio_clips] at h
  | .attr (some cm) => exact ⟨cm, rfl, by simpa [extract_audio_clips] using h⟩

theorem extract_audio_from_isSome (cm : ClipsMetadata) :
    (extract_audio_from cm).isSome = true →
    (∃ si, cm.original_sound_info = .attr (some si)) ∨
    (cm.original_sound_info = .noattr ∧ ∃ mi, cm.music_info = .attr (some mi)) := by
  unfold extract_audio_from
  rcases hsi : cm.original_sound_info with _ | osi
  · rcases hmi : cm.music_info with _ | omi
    · intro h
      simp at h
    · rcases omi with _ | mi
      · intro h
        simp at h
      · intro _
        exact Or.inr ⟨rfl, mi, rfl⟩
  · rcases osi with _ | si
    · intro h
      simp at h
    · intro _
      exact Or.inl ⟨si, rfl⟩

theorem itemPks_nil : itemPks [] = [] := rfl

theorem itemPks_cons_none (rest : List (Option String)) :
    itemPks (none :: rest) = itemPks rest := rfl

theorem itemPks_cons_some (pk : String) (rest : List (Option String)) :
    itemPks (some pk :: rest) = pk :: itemPks rest := rfl

/-- With a non-positive limit the early-return check never fires: the item
loop takes every valid item of the page. -/
theorem takeItems_nonpos (amount : Int) (h : amount ≤ 0) :
    ∀ (items : List (Option String)) (fetched : Nat),
      takeItems amount fetched items = (itemPks items, false) := by
  intro items
  induction items with
  | nil => intro fetched; rfl
  | cons a rest ih =>
      intro fetched
      cases a with
      | none => exact ih fetched
      | some pk =>
          simp only [takeItems]
          rw [if_neg (by omega)]
          simp [ih (fetched + 1), itemPks_cons_some]

theorem takeItems_nonpos_fst (amount : Int) (h : amount ≤ 0)
    (items : List (Option String)) (fetched : Nat) :
    (takeItems amount fetched items).1 = itemPks items := by
  rw [takeItems_nonpos amount h]

theorem takeItems_nonpos_snd (amount : Int) (h : amount ≤ 0)
    (items : List (Option String)) (fetched : Nat) :
    (takeItems amount fetched items).2 = false := by
  rw [takeItems_nonpos amount h]

/-- With limit `N > 0`, a page whose valid items do not reach the limit is
consumed whole and the early return does not fire. -/
theorem takeItems_pos_lt (N : Nat) :
    ∀ (items : List (Option String)) (fetched : Nat),
      fetched + (itemPks items).length < N →
      takeItems (N : Int) fetched items = (itemPks items, false) := by
  intro items
  induction items with
  | nil => intro fetched _; rfl
  | cons a rest ih =>
      intro fetched hlt
      cases a with
      | none =>
          rw [itemPks_cons_none] at hlt
          exact ih fetched hlt
      | some pk =>
          rw [itemPks_cons_some] at hlt
          simp only [List.length_cons] at hlt
          simp only [takeItems]
          rw [if_neg (by omega)]
          simp [ih (fetched + 1) (by omega), itemPks_cons_some]

/-- With limit `N > 0`, as soon as the valid items of the page reach the limit
the early return fires, keeping exactly the first `N - fetched` of them
and dropping the rest of the page. -/
theorem takeItems_pos_ge (N : Nat) (hN : 0 < N) :
    ∀ (items : List (Option String)) (fetched : Nat),
      fetched < N → N ≤ fetched + (itemPks items).length →
      takeItems (N : Int) fetched items = ((itemPks items).take (N - fetched), true) := by
  intro items
  induction items with
  | nil =>
      intro fetched hlt hge
      exfalso
      rw [itemPks_nil] at hge
      simp only [List.length_nil] at hge
      omega
  | cons a rest ih =>
      intro fetched hlt hge
      cases a with
      | none =>
          rw [itemPks_cons_none] at hge
          exact ih fetched hlt hge
      | some pk =>
          rw [itemPks_cons_some] at hge
          simp only [List.length_cons] at hge
          by_cases hfin : N ≤ fetched + 1
          · simp only [takeItems]
            rw [if_pos (by constructor <;> omega)]
            have h1 : N - fetched = 1 := by omega
            rw [itemPks_cons_some, h1, List.take_succ_cons, List.take_zero]
          · simp only [takeItems]
            rw [if_neg (by omega)]
            rw [ih (fetched + 1) (by omega) (by omega)]
            have h1 : N - fetched = (N - (fetched + 1)) + 1 := by omega
            rw [itemPks_cons_some, h1, List.take_succ_cons]

/-- On the malformed remote (`more_available` true, no cursor on every
page) the private-API fallback loop never exits, whatever the iteration
bound. -/
theorem fetchSavedLoop_malformed_none :
    ∀ (fuel k : Nat) (acc : List String),
      fetchSavedLoop malformedPages fuel k acc = none := by
  intro fuel
  induction fuel with
  | zero => intro k acc; rfl
  | succ n ih =>
      intro k acc
      simp only [fetchSavedLoop, malformedPages]
      exact ih (k + 1) (acc ++ validPks { items := [], more_available := true, next_max_id := none })

theorem rangeValids_zero (pages : Nat → PageResponse) (k : Nat) :
    rangeValids pages k 0 = [] := rfl

theorem rangeValids_succ (pages : Nat → PageResponse) (k m : Nat) :
    rangeValids pages k (m + 1) = itemPks (pages k).items ++ rangeValids pages (k + 1) m := rfl

theorem rangeValids_one (pages : Nat → PageResponse) (k : Nat) :
    rangeValids pages k 1 = itemPks (pages k).items := by
  rw [rangeValids_succ, rangeValids_zero, List.append_nil]

/-- With a non-positive limit, whenever the collection loop exits it has
issued `r ≥ 1` page requests, collected every valid item of those pages,
continued past exactly the pages that carried both a true
`more_available` and a cursor, and stopped at the first page that did
not. -/
theorem fetchCollectionLoop_nonpos (pages : Nat → PageResponse) (amount : Int)
    (h : amount ≤ 0) :
    ∀ (fuel k : Nat) (acc l : List String) (kfin : Nat),
      fetchCollectionLoop pages amount fuel k acc = some (l, kfin) →
      ∃ r, 1 ≤ r ∧ r ≤ fuel ∧ kfin = k + r ∧
        l = acc ++ rangeValids pages k r ∧
        ¬ pageContinues pages (k + r - 1) ∧
        ∀ j, j + 1 < r → pageContinues pages (k + j) := by
  intro fuel
  induction fuel with
  | zero =>
      intro k acc l kfin hrun
      exact absurd hrun (by simp [fetchCollectionLoop])
  | succ n ih =>
      intro k acc l kfin hrun
      simp only [fetchCollectionLoop] at hrun
      rw [takeItems_nonpos_snd amount h, takeItems_nonpos_fst amount h] at hrun
      rw [if_neg (by simp)] at hrun
      by_cases hbreak : (pages k).more_available = false ∨ (pages k).next_max_id = none
      · rw [if_pos hbreak] at hrun
        simp only [Option.some.injEq, Prod.mk.injEq] at hrun
        obtain ⟨hl1, hl2⟩ := hrun
        refine ⟨1, le_refl 1, by omega, by omega, ?_, ?_, ?_⟩
        · rw [← hl1]
          simp only [rangeValids, validPks, List.append_nil]
        · have hk : k + 1 - 1 = k := by omega
          rw [hk]
          rintro ⟨hm, hn⟩
          rcases hbreak with hb | hb
          · rw [hm] at hb
            simp at hb
          · exact hn hb
        · intro j hj
          omega
      · rw [if_neg hbreak] at hrun
        obtain ⟨r, hr1, hr2, hr3, hr4, hr5, hr6⟩ :=
          ih (k + 1) (acc ++ itemPks (pages k).items) l kfin hrun
        have hcontk : pageContinues pages k := by
          constructor
          · cases hb : (pages k).more_available with
            | true => rfl
            | false => exact (hbreak (Or.inl hb)).elim
          · intro hn
            exact hbreak (Or.inr hn)
        refine ⟨r + 1, by omega, by omega, by omega, ?_, ?_, ?_⟩
        · rw [hr4]
          simp only [rangeValids, validPks, List.append_assoc]
        · have hk : k + (r + 1) - 1 = k + 1 + r - 1 := by omega
          rw [hk]
          exact hr5
        · intro j hj
          cases j with
          | zero => simpa using hcontk
          | succ j2 =>
              have hk : k + (j2 + 1) = k + 1 + j2 := by omega
              rw [hk]
              exact hr6 j2 (by omega)

/-- With limit `N > 0`, on a remote that does not end pagination before
`N` valid posts have been delivered, the collection loop returns exactly
the first `N` posts after `r` page requests, where the `r`-th requested
page is the one carrying the `N`-th post — no further page request is
issued once the limit is reached. -/
theorem fetchCollectionLoop_pos (pages : Nat → PageResponse) (N : Nat) (hN : 0 < N) :
    ∀ (fuel k : Nat) (acc : List String),
      acc.length < N →
      N ≤ acc.length + (rangeValids pages k fuel).length →
      (∀ j, j < fuel → acc.length + (rangeValids pages k (j + 1)).length < N →
        pageContinues pages (k + j)) →
      ∃ r, 1 ≤ r ∧ r ≤ fuel ∧
        fetchCollectionLoop pages (N : Int) fuel k acc =
          some (acc ++ (rangeValids pages k r).take (N - acc.length), k + r) ∧
        acc.length + (rangeValids pages k (r - 1)).length < N ∧
        N ≤ acc.length + (rangeValids pages k r).length := by
  intro fuel
  induction fuel with
  | zero =>
      intro k acc hlt hcount hcont
      exfalso
      rw [rangeValids_zero] at hcount
      simp only [List.length_nil] at hcount
      omega
  | succ n ih =>
      intro k acc hlt hcount hcont
      by_cases hA : N ≤ acc.length + (itemPks (pages k).items).length
      · refine ⟨1, le_refl 1, by omega, ?_, ?_, ?_⟩
        · simp only [fetchCollectionLoop]
          rw [takeItems_pos_ge N hN (pages k).items acc.length hlt hA]
          rw [if_pos rfl]
          rw [rangeValids_one]
        · simp only [Nat.sub_self]
          rw [rangeValids_zero]
          simp only [List.length_nil]
          omega
        · rw [rangeValids_one]
          exact hA
      · push_neg at hA
        have hcontk : pageContinues pages k := by
          have h0 := hcont 0 (by omega)
          rw [Nat.add_zero] at h0
          apply h0
          rw [rangeValids_one]
          omega
        have hnb : ¬((pages k).more_available = false ∨ (pages k).next_max_id = none) := by
          rintro (hb | hb)
          · rw [hcontk.1] at hb
            simp at hb
          · exact hcontk.2 hb
        have hstep : fetchCollectionLoop pages (N : Int) (n + 1) k acc =
            fetchCollectionLoop pages (N : Int) n (k + 1) (acc ++ itemPks (pages k).items) := by
          simp only [fetchCollectionLoop]
          rw [takeItems_pos_lt N (pages k).items acc.length hA]
          rw [if_neg (by simp), if_neg hnb]
        have hlen2 : (acc ++ itemPks (pages k).items).length =
            acc.length + (itemPks (pages k).items).length := List.length_append _ _
        have hcount2 : N ≤ (acc ++ itemPks (pages k).items).length +
            (rangeValids pages (k + 1) n).length := by
          rw [rangeValids_succ, List.length_append] at hcount
          rw [hlen2]
          omega
        have hcont2 : ∀ j, j < n →
            (acc ++ itemPks (pages k).items).length +
              (rangeValids pages (k + 1) (j + 1)).length < N →
            pageContinues pages (k + 1 + j) := by
          intro j hj hlen
          have hk : k + (j + 1) = k + 1 + j := by omega
          rw [← hk]
          apply hcont (j + 1) (by omega)
          rw [rangeValids_succ pages k (j + 1), List.length_append]
          rw [hlen2] at hlen
          omega
        obtain ⟨r, hr1, hr2, hr3, hr4, hr5⟩ :=
          ih (k + 1) (acc ++ itemPks (pages k).items) (by rw [hlen2]; omega) hcount2 hcont2
        obtain ⟨s, rfl⟩ : ∃ s, r = s + 1 := ⟨r - 1, by omega⟩
        refine ⟨s + 1 + 1, by omega, by omega, ?_, ?_, ?_⟩
        · rw [hstep, hr3]
          have hk2 : k + 1 + (s + 1) = k + (s + 1 + 1) := by omega
          rw [hk2]
          rw [rangeValids_succ pages k (s + 1)]
          rw [List.take_append_eq_append_take]
          rw [List.take_of_length_le (show (itemPks (pages k).items).length ≤ N - acc.length by omega)]
          rw [← List.append_assoc]
          rw [show N - acc.length - (itemPks (pages k).items).length =
                N - (acc ++ itemPks (pages k).items).length from by rw [hlen2]; omega]
        · simp only [Nat.add_sub_cancel]
          rw [rangeValids_succ pages k s, List.length_append]
          simp only [Nat.add_sub_cancel] at hr4
          rw [hlen2] at hr4
          omega
        · rw [rangeValids_succ pages k (s + 1), List.length_append]
          rw [hlen2] at hr5
          omega

/-! ### Claim theorems -/

/-- C5: ledger persistence round-trip — after `mark_downloaded pk` and
`save_tracker`, a fresh ledger constructed from the written file answers
`is_downloaded pk = true`. -/
theorem ledger_persistence_roundtrip (t : List String) (pk : String) (now : String) :
    is_downloaded (load_tracker (save_tracker (mark_downloaded t pk) now)) pk = true := by
  unfold save_tracker load_tracker is_downloaded
  have h := mark_downloaded_mem t pk
  simp [List.mem_dedup, h]

/-- C8: ledger construction is total over file states — a missing or
unparseable ledger file yields the empty ledger (no exception escapes
`_load_tracker`), so every `is_downloaded` query answers false. -/
theorem ledger_load_total_on_bad_files :
    load_tracker .missing = [] ∧ load_tracker .corrupt = [] ∧
    ∀ pk, is_downloaded (load_tracker .missing) pk = false ∧
          is_downloaded (load_tracker .corrupt) pk = false :=
  ⟨rfl, rfl, fun _ => ⟨rfl, rfl⟩⟩

/-- C10: `mark_downloaded` is immediately visible and idempotent, and —
since every loaded ledger is deduplicated and marking preserves
distinctness — the set persisted by `save_tracker` never holds duplicate
identifiers. -/
theorem mark_downloaded_idempotent_visible (t : List String) (pk : String)
    (h : t.Nodup) :
    is_downloaded (mark_downloaded t pk) pk = true ∧
    mark_downloaded (mark_downloaded t pk) pk = mark_downloaded t pk ∧
    (mark_downloaded t pk).Nodup ∧
    ∀ f : TrackerFile, (load_tracker f).Nodup := by
  refine ⟨is_downloaded_mark_self t pk, ?_, ?_, ?_⟩
  · by_cases ht : pk ∈ t
    · simp [mark_downloaded, ht]
    · simp [mark_downloaded, ht]
  · by_cases ht : pk ∈ t
    · simpa [mark_downloaded, ht] using h
    · simp only [mark_downloaded]
      rw [if_neg (by simpa using ht)]
      exact List.nodup_cons.mpr ⟨ht, h⟩
  · intro f
    cases f <;> simp [load_tracker, List.nodup_dedup]

theorem mark_downloaded_idempotent_visible_witness :
    (["a"] : List String).Nodup ∧
    (is_downloaded (mark_downloaded ["a"] "b") "b" = true ∧
     mark_downloaded (mark_downloaded ["a"] "b") "b" = mark_downloaded ["a"] "b" ∧
     (mark_downloaded ["a"] "b").Nodup ∧
     ∀ f : TrackerFile, (load_tracker f).Nodup) :=
  ⟨by decide, mark_downloaded_idempotent_visible ["a"] "b" (by decide)⟩

/-- C1 counterexample: a post whose media fetch succeeds
(`download_result = some path`) and whose metadata save fails
(`metadata_result = none`).  The code counts it successful, leaves the
failure counter at zero and marks it in the ledger, so the outcome the
claim requires (failed = 1, successful = 0, not ledgered) is false. -/
theorem metadata_save_failure_counted_successful :
    ¬ ((runDownloadLoop [("123", some "photos/123.jpg", none)] [] ⟨0, 0⟩).2.failed = 1 ∧
       (runDownloadLoop [("123", some "photos/123.jpg", none)] [] ⟨0, 0⟩).2.successful = 0 ∧
       is_downloaded (runDownloadLoop [("123", some "photos/123.jpg", none)] [] ⟨0, 0⟩).1 "123"
         = false) := by
  decide

/-- C1 (amended): in the download loop of the orchestrator a post whose media
fetch succeeds is counted as a success and marked in the ledger regardless
of the metadata-save outcome — `save_metadata` swallows its own failures
and returns `none`, and the loop discards that return value; only a failed
media fetch increments the failure counter. -/
theorem fetch_success_always_counts (tracker : List String) (stats : RunStats)
    (pk path : String) (metadata_result : Option String) :
    processPost tracker stats pk (some path) metadata_result =
      (mark_downloaded tracker pk,
       { successful := stats.successful + 1, failed := stats.failed }) ∧
    is_downloaded (processPost tracker stats pk (some path) metadata_result).1 pk = true ∧
    processPost tracker stats pk none metadata_result =
      (tracker, { successful := stats.successful, failed := stats.failed + 1 }) ∧
    ∀ (m : Media) (pk2 now : String), save_metadata m pk2 now false = none :=
  ⟨rfl, is_downloaded_mark_self tracker pk, rfl, fun _ _ _ => rfl⟩

/-- C9: `download_media` dispatches strictly on the declared media type —
photo (1) into the photos directory, video (2) into the videos directory,
album (8) into a per-post subdirectory of the albums directory — and any
other type yields `none`; since the result equals the (fallible) client
call, any error there (`none`) is returned, never raised. -/
theorem download_media_dispatch (c : RemoteClient) (base : String) (m : Media) :
    (m.media_type = 1 → download_media c base m = c.photo_download m.pk (base ++ "/photos")) ∧
    (m.media_type = 2 → download_media c base m = c.video_download m.pk (base ++ "/videos")) ∧
    (m.media_type = 8 →
      download_media c base m = c.album_download m.pk (base ++ "/albums/" ++ m.pk)) ∧
    (m.media_type ≠ 1 → m.media_type ≠ 2 → m.media_type ≠ 8 →
      download_media c base m = none) := by
  unfold download_media
  refine ⟨fun h => ?_, fun h => ?_, fun h => ?_, fun h1 h2 h8 => ?_⟩
  · simp [h]
  · simp [h]
  · simp [h]
  · simp only [beq_iff_eq]
    rw [if_neg h1, if_neg h2, if_neg h8]

/-- C6: hashtag and mention extraction is a pure function of the caption
text: an absent or empty caption yields empty lists, the outputs are
deduplicated `#word` resp. `@word` tokens — the same set as the raw
matches — and the caption "Hello #world #world @alice" yields hashtags
exactly ["world"] and mentions exactly ["alice"]. -/
theorem hashtag_mention_extraction :
    extract_hashtags none = [] ∧ extract_hashtags (some "") = [] ∧
    extract_mentions none = [] ∧ extract_mentions (some "") = [] ∧
    extract_hashtags (some "Hello #world #world @alice") = ["world"] ∧
    extract_mentions (some "Hello #world #world @alice") = ["alice"] ∧
    (∀ t : Option String, (extract_hashtags t).Nodup ∧ (extract_mentions t).Nodup) ∧
    (∀ s : String,
      (extract_hashtags (some s)).toFinset = (findTags '#' s).toFinset ∧
      (extract_mentions (some s)).toFinset = (findTags '@' s).toFinset) := by
  refine ⟨rfl, rfl, rfl, rfl, by decide, by decide, ?_, ?_⟩
  · intro t
    constructor
    · unfold extract_hashtags
      split
      · exact List.nodup_dedup _
      · exact List.nodup_nil
    · unfold extract_mentions
      split
      · exact List.nodup_dedup _
      · exact List.nodup_nil
  · intro s
    constructor
    · unfold extract_hashtags
      by_cases h : s = ""
      · subst h
        rfl
      · rw [if_pos (by simp [truthyStr, h])]
        ext a
        simp [List.mem_toFinset, List.mem_dedup]
    · unfold extract_mentions
      by_cases h : s = ""
      · subst h
        rfl
      · rw [if_pos (by simp [truthyStr, h])]
        ext a
        simp [List.mem_toFinset, List.mem_dedup]

/-- C4: filtering the candidates against the ledger is an order-preserving
set difference — the work set is a subsequence of the candidate list
holding exactly the candidates whose identifier is not ledgered, and the
reported skipped count is the number of ledgered candidates, which equals
the candidate count minus the work-set size. -/
theorem filtering_is_ordered_set_difference (L : List String) (C : List Media) :
    (filterNew L C).Sublist C ∧
    (∀ m, m ∈ filterNew L C → is_downloaded L m.pk = false) ∧
    (∀ m, m ∈ C → is_downloaded L m.pk = false → m ∈ filterNew L C) ∧
    (filterNew L C).length + skippedCount L C = C.length ∧
    skippedCount L C = C.countP (fun m => is_downloaded L m.pk) := by
  have hfil : (filterNew L C).length = C.countP (fun m => !(is_downloaded L m.pk)) := by
    unfold filterNew
    rw [List.countP_eq_length_filter]
  have hsplit := List.length_eq_countP_add_countP (fun m => is_downloaded L m.pk) C
  have heq : (C.countP fun a => decide ¬(is_downloaded L a.pk = true)) =
      C.countP (fun m => !(is_downloaded L m.pk)) := by
    apply List.countP_congr
    intro a _
    simp
  have hle : (filterNew L C).length ≤ C.length := by
    unfold filterNew
    exact List.length_filter_le _ _
  have key : C.length = C.countP (fun m => is_downloaded L m.pk) + (filterNew L C).length := by
    rw [hfil, ← heq]
    exact hsplit
  refine ⟨List.filter_sublist C, ?_, ?_, ?_, ?_⟩
  · intro m hm
    have h2 := (List.mem_filter.mp hm).2
    simpa using h2
  · intro m hm h
    refine List.mem_filter.mpr ⟨hm, ?_⟩
    simp [h]
  · unfold skippedCount
    omega
  · unfold skippedCount
    omega

theorem filtering_is_ordered_set_difference_witness :
    (filterNew ["99"] [baseMedia, mysteryMedia]).Sublist [baseMedia, mysteryMedia] ∧
    (∀ m, m ∈ filterNew ["99"] [baseMedia, mysteryMedia] →
      is_downloaded ["99"] m.pk = false) ∧
    (∀ m, m ∈ [baseMedia, mysteryMedia] → is_downloaded ["99"] m.pk = false →
      m ∈ filterNew ["99"] [baseMedia, mysteryMedia]) ∧
    (filterNew ["99"] [baseMedia, mysteryMedia]).length +
      skippedCount ["99"] [baseMedia, mysteryMedia] = ([baseMedia, mysteryMedia] : List Media).length ∧
    skippedCount ["99"] [baseMedia, mysteryMedia] =
      List.countP (fun m => is_downloaded ["99"] m.pk) [baseMedia, mysteryMedia] :=
  filtering_is_ordered_set_difference ["99"] [baseMedia, mysteryMedia]

theorem download_media_dispatch_witness :
    download_media stubClient "dl" photoMedia = some "dl/photos/11.jpg" ∧
    download_media stubClient "dl" albumMedia5 = none ∧
    download_media stubClient "dl" mysteryMedia = none := by
  have h1 := download_media_dispatch stubClient "dl" photoMedia
  have h8 := download_media_dispatch stubClient "dl" albumMedia5
  have h9 := download_media_dispatch stubClient "dl" mysteryMedia
  exact ⟨(h1.1 (by decide)).trans (by decide),
         (h8.2.2.1 (by decide)).trans (by decide),
         h9.2.2.2 (by decide) (by decide) (by decide)⟩

/-- C7: type-conditional metadata fields — an audio sub-record appears
only for video-type posts (media type 2) carrying an audio reference,
taken from `original_sound_info` when that attribute is present (and
truthy), and from `music_info` only when the `original_sound_info`
attribute is absent; a location sub-record appears exactly when a location
is present; `carousel_count` equals the number of sub-resources and
appears only for album-type posts (media type 8). -/
theorem metadata_type_conditional_fields (m : Media) (now : String) :
    ((extract_metadata m now).audio.isSome = true → m.media_type = 2 ∧
      ∃ cm, m.clips_metadata = .attr (some cm) ∧
        ((∃ si, cm.original_sound_info = .attr (some si)) ∨
         (cm.original_sound_info = .noattr ∧ ∃ mi, cm.music_info = .attr (some mi)))) ∧
    (∀ cm si, m.media_type = 2 → m.clips_metadata = .attr (some cm) →
      cm.original_sound_info = .attr (some si) →
      (extract_metadata m now).audio =
        some { audio_id := si.audio_asset_id.getD "",
               original_audio_title := si.original_audio_title.getD "" }) ∧
    (∀ cm mi, m.media_type = 2 → m.clips_metadata = .attr (some cm) →
      cm.original_sound_info = .noattr → cm.music_info = .attr (some mi) →
      (extract_metadata m now).audio =
        some { audio_id := mi.audio_asset_id.getD "",
               original_audio_title := mi.display_artist.getD "" }) ∧
    ((extract_metadata m now).location.isSome = true ↔
      ∃ loc, m.location = .attr (some loc)) ∧
    (∀ rs, m.media_type = 8 → m.resources = .attr rs →
      (extract_metadata m now).carousel_count = some rs.length) ∧
    (m.media_type ≠ 8 → (extract_metadata m now).carousel_count = none) := by
  have haud : (extract_metadata m now).audio = extract_audio m := rfl
  have hloc : (extract_metadata m now).location = extract_location m := rfl
  have hcar : (extract_metadata m now).carousel_count = extract_carousel_count m := rfl
  refine ⟨?_, ?_, ?_, ?_, ?_, ?_⟩
  · intro hsome
    rw [haud] at hsome
    unfold extract_audio at hsome
    by_cases h2 : m.media_type = 2
    · rw [if_pos (by simp [h2])] at hsome
      obtain ⟨cm, hcm, hfrom⟩ := extract_audio_clips_isSome hsome
      exact ⟨h2, cm, hcm, extract_audio_from_isSome cm hfrom⟩
    · exfalso
      rw [if_neg (by simp [h2])] at hsome
      simp at hsome
  · intro cm si h2 hcm hsi
    rw [haud]
    unfold extract_audio
    rw [if_pos (by simp [h2]), hcm]
    show extract_audio_from cm = _
    unfold extract_audio_from
    rw [hsi]
  · intro cm mi h2 hcm hsi hmi
    rw [haud]
    unfold extract_audio
    rw [if_pos (by simp [h2]), hcm]
    show extract_audio_from cm = _
    unfold extract_audio_from
    rw [hsi, hmi]
  · rw [hloc]
    unfold extract_location
    constructor
    · rcases hl : m.location with _ | ol
      · intro hsome
        simp at hsome
      · rcases ol with _ | loc
        · intro hsome
          simp at hsome
        · intro _
          exact ⟨loc, rfl⟩
    · rintro ⟨loc, hl⟩
      rw [hl]
      rfl
  · intro rs h8 hrs
    rw [hcar]
    unfold extract_carousel_count
    rw [if_pos (by simp [h8]), hrs]
  · intro h8
    rw [hcar]
    unfold extract_carousel_count
    rw [if_neg (by simp [h8])]

theorem metadata_type_conditional_fields_witness :
    (extract_metadata videoMediaOriginalSound "t").audio =
      some { audio_id := "a1", original_audio_title := "t1" } ∧
    (extract_metadata videoMediaMusicOnly "t").audio =
      some { audio_id := "a2", original_audio_title := "artist" } ∧
    (extract_metadata albumMedia5 "t").carousel_count = some 5 ∧
    (extract_metadata photoMedia "t").carousel_count = none ∧
    (extract_metadata locatedMedia "t").location.isSome = true := by
  have h1 := metadata_type_conditional_fields videoMediaOriginalSound "t"
  have h2 := metadata_type_conditional_fields videoMediaMusicOnly "t"
  have h3 := metadata_type_conditional_fields albumMedia5 "t"
  have h4 := metadata_type_conditional_fields photoMedia "t"
  have h5 := metadata_type_conditional_fields locatedMedia "t"
  refine ⟨?_, ?_, ?_, ?_, ?_⟩
  · exact h1.2.1 origClips origSound rfl rfl rfl
  · exact h2.2.2.1 musicClips musicOnly rfl rfl rfl rfl
  · exact h3.2.2.2.2.1 [(), (), (), (), ()] rfl rfl
  · exact h4.2.2.2.2.2 (by decide)
  · exact h5.2.2.2.1.mpr ⟨cafeLoc, rfl⟩

/-- C2: on a malformed remote that always declares more pages available
but never returns a cursor, the collection listing loop treats the missing
cursor as end-of-stream and terminates after a single page request — but
the private-API fallback that lists all saved posts checks only the
more-available flag, so on the same remote it never exits, whatever the
iteration bound: the guard the claim describes exists only in the
collection listing. -/
theorem missing_cursor_guard_divergence :
    fetch_collection_medias malformedPages 0 1 = some ([], 1) ∧
    (∀ fuel, fetch_saved_private_api malformedPages fuel = none) := by
  constructor
  · rfl
  · intro fuel
    exact fetchSavedLoop_malformed_none fuel 0 []

/-- C3: limit semantics of `fetch_collection_medias` — a limit `≤ 0`
fetches until pagination ends (whenever the loop exits it has collected
every valid item of the pages it requested, and the last page was the
first without a continue signal), while a limit `N > 0` against a remote
yielding at least `N` posts before pagination ends returns exactly the
first `N` posts, the final page request being the one that carried the
`N`-th post — no page request is issued after the limit is reached. -/
theorem fetch_collection_limit_semantics (pages : Nat → PageResponse) :
    (∀ (amount : Int) (fuel kfin : Nat) (l : List String), amount ≤ 0 →
      fetch_collection_medias pages amount fuel = some (l, kfin) →
      ∃ r, 1 ≤ r ∧ r ≤ fuel ∧ kfin = r ∧ l = rangeValids pages 0 r ∧
        ¬ pageContinues pages (r - 1) ∧
        ∀ j, j + 1 < r → pageContinues pages j) ∧
    (∀ (N fuel : Nat), 0 < N →
      N ≤ (rangeValids pages 0 fuel).length →
      (∀ j, j < fuel → (rangeValids pages 0 (j + 1)).length < N →
        pageContinues pages j) →
      ∃ r, 1 ≤ r ∧ r ≤ fuel ∧
        fetch_collection_medias pages (N : Int) fuel =
          some ((rangeValids pages 0 r).take N, r) ∧
        ((rangeValids pages 0 r).take N).length = N ∧
        (rangeValids pages 0 (r - 1)).length < N ∧
        N ≤ (rangeValids pages 0 r).length) := by
  constructor
  · intro amount fuel kfin l hle hrun
    obtain ⟨r, h1, h2, h3, h4, h5, h6⟩ :=
      fetchCollectionLoop_nonpos pages amount hle fuel 0 [] l kfin hrun
    refine ⟨r, h1, h2, by omega, ?_, ?_, ?_⟩
    · simpa using h4
    · simpa using h5
    · intro j hj
      simpa using h6 j hj
  · intro N fuel hN hcount hcont
    have hc2 : ∀ j, j < fuel →
        ([] : List String).length + (rangeValids pages 0 (j + 1)).length < N →
        pageContinues pages (0 + j) := by
      intro j hj hlen
      rw [Nat.zero_add]
      exact hcont j hj (by simpa using hlen)
    obtain ⟨r, h1, h2, h3, h4, h5⟩ :=
      fetchCollectionLoop_pos pages N hN fuel 0 [] (by simpa using hN)
        (by simpa using hcount) hc2
    refine ⟨r, h1, h2, ?_, ?_, ?_, ?_⟩
    · unfold fetch_collection_medias
      rw [h3]
      simp
    · rw [List.length_take]
      have h5a : N ≤ (rangeValids pages 0 r).length := by simpa using h5
      omega
    · simpa using h4
    · simpa using h5

theorem fetch_collection_limit_semantics_witness :
    (∃ r, 1 ≤ r ∧ r ≤ 10 ∧ (2 : Nat) = r ∧
      (["0", "1"] : List String) = rangeValids endingStub 0 r ∧
      ¬ pageContinues endingStub (r - 1) ∧
      ∀ j, j + 1 < r → pageContinues endingStub j) ∧
    (∃ r, 1 ≤ r ∧ r ≤ 5 ∧
      fetch_collection_medias unlimitedStub 3 5 =
        some ((rangeValids unlimitedStub 0 r).take 3, r) ∧
      ((rangeValids unlimitedStub 0 r).take 3).length = 3 ∧
      (rangeValids unlimitedStub 0 (r - 1)).length < 3 ∧
      3 ≤ (rangeValids unlimitedStub 0 r).length) := by
  constructor
  · exact (fetch_collection_limit_semantics endingStub).1 0 10 2 ["0", "1"]
      (by decide) (by decide)
  · exact (fetch_collection_limit_semantics unlimitedStub).2 3 5
      (by decide) (by decide) (by decide)

end InstaDL
